import Mathlib

/-!
# Verification of `backend/backendWrapper/app/main.py`

Shallow embedding of the FastAPI wrapper around a single long-lived worker
subprocess, and proofs about it.

The source is a Python/asyncio module with:
* a process-wide `proc : Optional[Process]` and an `asyncio.Lock` (`io_lock`);
* `start_kotlin()` — spawn the worker unless a live one exists;
* `_drain_stderr(p)` — background loop draining the worker's stderr;
* `stop_kotlin()` — graceful stop with a 2-second grace period, then kill;
* `send(q)` — the `GET /send` handler: ensure started, check the recorded
  exit code, then (under `io_lock`) write `q + "\n"` UTF-8-encoded to the
  worker's stdin and read response lines with a 5-second per-read timeout.

Modelling choices (documented next to each definition):
* Bytes are `Nat` (values < 256 in practice); byte strings are `List Nat`.
* Each `await asyncio.wait_for(proc.stdout.readline(), timeout=5.0)` either
  returns the bytes of one line (possibly `[]` once the stream hits EOF:
  `readline` then completes immediately with `b""`, so `wait_for` cannot
  time out any more) or raises `TimeoutError`.  A worker's stdout behaviour
  during one exchange is therefore a stream `Nat → ReadRes` giving the
  outcome of the n-th read attempt.
* The read loop of `send` is an unbounded `while True`; we embed it as a
  fuel-indexed function returning `Option` — `none` means the loop has not
  produced an answer within the given fuel, and divergence is the statement
  that it returns `none` for every fuel.
-/

namespace MetricMode

/-- Outcome of one `wait_for(proc.stdout.readline(), timeout=5.0)`:
either one line of bytes (empty once the stream is at EOF, in which case the
call completes immediately and cannot time out) or a `TimeoutError`. -/
inductive ReadRes where
  | data (d : List Nat)
  | timeout
  deriving DecidableEq, Repr

/-- UTF-8 encoding of a single Unicode code point, as Python's
`str.encode("utf-8")` produces it (the source encodes `q + "\n"`). -/
def utf8Char (n : Nat) : List Nat :=
  if n < 0x80 then [n]
  else if n < 0x800 then [0xC0 + n / 0x40, 0x80 + n % 0x40]
  else if n < 0x10000 then
    [0xE0 + n / 0x1000, 0x80 + n / 0x40 % 0x40, 0x80 + n % 0x40]
  else
    [0xF0 + n / 0x40000, 0x80 + n / 0x1000 % 0x40, 0x80 + n / 0x40 % 0x40,
      0x80 + n % 0x40]

/-- UTF-8 encoding of a string (Python `str` is a sequence of code points;
we model it as `List Char`). -/
def utf8Encode (s : List Char) : List Nat :=
  s.flatMap (fun c => utf8Char c.toNat)

/-- Is `b` a UTF-8 continuation byte (`0x80 ≤ b < 0xC0`)? -/
def isCont (b : Nat) : Bool := 0x80 ≤ b && b < 0xC0

/-- The replacement character U+FFFD used by `decode("utf-8", errors="replace")`. -/
def replChar : Char := Char.ofNat 0xFFFD

/-- Decode a valid code point if in range, else the replacement character
(surrogates and out-of-range values are invalid, as in Python). -/
def charOfCodepoint (lo hi n : Nat) : Char :=
  if lo ≤ n ∧ n ≤ hi ∧ n.isValidChar then Char.ofNat n else replChar

/-- Decode a multi-byte UTF-8 sequence: lead byte `b` plus its continuation
bytes `cs` (already checked to be continuations). -/
def decodeMB (b : Nat) (cs : List Nat) : Char :=
  match cs with
  | [b2] => charOfCodepoint 0x80 0x7FF (0x40 * (b - 0xC0) + (b2 - 0x80))
  | [b2, b3] =>
    charOfCodepoint 0x800 0xFFFF
      (0x1000 * (b - 0xE0) + 0x40 * (b2 - 0x80) + (b3 - 0x80))
  | [b2, b3, b4] =>
    charOfCodepoint 0x10000 0x10FFFF
      (0x40000 * (b - 0xF0) + 0x1000 * (b2 - 0x80) + 0x40 * (b3 - 0x80) +
        (b4 - 0x80))
  | _ => replChar

/-- How many continuation bytes a lead byte announces (`0` = not a valid
lead byte for a multi-byte sequence). -/
def contLen (b : Nat) : Nat :=
  if b < 0xE0 then 1 else if b < 0xF0 then 2 else if b < 0xF5 then 3 else 0

/-- Worker for `utf8Decode`, structurally recursive on a fuel that each
step strictly decreases while at least one byte is consumed; fuel
`l.length` therefore always suffices. -/
def utf8DecodeGo (fuel : Nat) (l : List Nat) : List Char :=
  match fuel, l with
  | 0, _ => []
  | _ + 1, [] => []
  | fuel + 1, b :: rest =>
    if b < 0x80 then Char.ofNat b :: utf8DecodeGo fuel rest
    else if b < 0xC2 then replChar :: utf8DecodeGo fuel rest
    else
      let n := contLen b
      if n ≠ 0 ∧ (rest.take n).length = n ∧ (rest.take n).all isCont then
        decodeMB b (rest.take n) :: utf8DecodeGo fuel (rest.drop n)
      else replChar :: utf8DecodeGo fuel rest

/-- UTF-8 decoding with replacement, modelling Python's
`bytes.decode("utf-8", errors="replace")`.  Valid sequences decode exactly;
an invalid byte yields U+FFFD.  (Abstraction: on malformed input Python may
group several bad bytes into one replacement character; every theorem below
only evaluates this on valid UTF-8, where the two agree.) -/
def utf8Decode (l : List Nat) : List Char := utf8DecodeGo l.length l

/-- Python's `str.rstrip("\n")`: drop every trailing newline character. -/
def pyRstripNl (s : List Char) : List Char :=
  (s.reverse.dropWhile (fun c => c = '\n')).reverse

/-- `line.decode("utf-8", errors="replace").rstrip("\n")` — how `send`
turns the accumulated byte buffer into the `"out"` field of its response. -/
def decodeOut (l : List Nat) : List Char := pyRstripNl (utf8Decode l)

/-! ## Process lifecycle (`proc`, `start_kotlin`, `stop_kotlin`)

`proc` is a process-wide `Optional[asyncio.subprocess.Process]`.  We model a
process handle by its spawn index (so distinct spawns are distinguishable),
its recorded `returncode` (`none` while the process has not been observed to
exit), and one behavioural fact needed by `stop_kotlin`: whether the process
exits within the 2-second grace period after `terminate()`. -/

structure ProcH where
  /-- spawn index: the value of the global spawn counter when this handle
  was created, so each `create_subprocess_exec` yields a fresh handle. -/
  id : Nat
  /-- `Process.returncode`: `none` while the event loop has not recorded an
  exit, `some c` once the process exited with code `c`. -/
  returncode : Option Int
  /-- whether the process exits within the 2-second grace period after
  `terminate()` (behaviour of the external worker, a model parameter). -/
  exitsWithinGrace : Bool
  deriving DecidableEq, Repr

/-- The module-level mutable state relevant to the supervisor: the global
`proc` reference plus a ghost counter of how many processes have been
spawned (`create_subprocess_exec` calls). -/
structure GState where
  proc : Option ProcH
  spawned : Nat
  deriving DecidableEq, Repr

/-- `start_kotlin()`:

```python
global proc
if proc is not None and proc.returncode is None:
    print("NO")
    return
proc = await asyncio.create_subprocess_exec(...)
app.state.stderr_task = asyncio.create_task(_drain_stderr(proc))
```

A freshly spawned process has `returncode = None`.  `graceful` is the model
parameter giving the fresh worker's termination behaviour; the stderr-drain
task and the `print` are side effects outside the claims. -/
def start_kotlin (graceful : Bool) (s : GState) : GState :=
  match s.proc with
  | some p =>
    if p.returncode = none then s
    else { proc := some ⟨s.spawned, none, graceful⟩, spawned := s.spawned + 1 }
  | none =>
    { proc := some ⟨s.spawned, none, graceful⟩, spawned := s.spawned + 1 }

/-- Observable actions `stop_kotlin` performs on the process. -/
inductive StopAct where
  /-- `proc.terminate()` -/
  | terminate
  /-- `await asyncio.wait_for(proc.wait(), timeout=2.0)`: waited up to
  `grace` seconds; `exited` records whether the process exited in time. -/
  | waitGrace (grace : Nat) (exited : Bool)
  /-- `proc.kill()` -/
  | kill
  /-- unconditional `await proc.wait()` -/
  | wait
  deriving DecidableEq, Repr

/-- `stop_kotlin()`:

```python
global proc
if proc is None:
    return
if proc.returncode is None:
    proc.terminate()
    try:
        await asyncio.wait_for(proc.wait(), timeout=2.0)
    except asyncio.TimeoutError:
        proc.kill()
        await proc.wait()
proc = None
```

Returns the new state and the trace of actions performed on the process. -/
def stop_kotlin (s : GState) : GState × List StopAct :=
  match s.proc with
  | none => (s, [])
  | some p =>
    if p.returncode = none then
      if p.exitsWithinGrace then
        ({ s with proc := none }, [.terminate, .waitGrace 2 true])
      else
        ({ s with proc := none },
          [.terminate, .waitGrace 2 false, .kill, .wait])
    else ({ s with proc := none }, [])

/-! ## The `send` handler's exchange

```python
@app.get("/send")
async def send(q: str = Query(...)):
    await start_kotlin()
    assert proc is not None
    assert proc.stdin is not None
    assert proc.stdout is not None
    if proc.returncode is not None:
        raise HTTPException(500, detail=f"Kotlin process exited with code {proc.returncode}")
    async with io_lock:
        try:
            payload = (q + "\n").encode("utf-8")
            proc.stdin.write(payload)
            await proc.stdin.drain()
            line = await asyncio.wait_for(proc.stdout.readline(), timeout=5.0)
            while True:
                print(line)
                line += await asyncio.wait_for(proc.stdout.readline(), timeout=5.0)
            if not line:
                raise HTTPException(500, detail="Kotlin process produced no output (EOF).")
            return {"out": line.decode("utf-8", errors="replace").rstrip("\n")}
        except asyncio.TimeoutError:
            return {"out": line.decode("utf-8", errors="replace").rstrip("\n")}
        except BrokenPipeError:
            raise HTTPException(500, detail="Kotlin process stdin closed (BrokenPipe).")
```

The possible outcomes.  Note the `while True` loop body never breaks, so the
two statements after it (`if not line: raise …` and the `return`) are dead
code; `noOutput` is the outcome those dead statements would produce. -/
inductive HandleRes where
  /-- HTTP 200, body `{"out": out}` -/
  | ok (out : List Char)
  /-- HTTP 500, `f"Kotlin process exited with code {c}"` -/
  | workerExited (c : Int)
  /-- `UnboundLocalError`: the first `readline` timed out, so `line` is
  unbound when the `except asyncio.TimeoutError` handler evaluates
  `line.decode(...)`; FastAPI turns this into a generic 500. -/
  | unboundLocal
  /-- HTTP 500, "Kotlin process produced no output (EOF)." (dead code) -/
  | noOutput
  /-- HTTP 500, "Kotlin process stdin closed (BrokenPipe)." -/
  | brokenPipe
  deriving DecidableEq, Repr

/-- The `while True` read loop, with the buffer already holding the first
line.  `i` is the index of the next read attempt on the stdout stream `f`;
`fuel` bounds how many loop iterations we unfold (`none` = the loop has not
exited within `fuel` iterations — the loop has no terminating branch other
than a `TimeoutError`, so `none` for all fuels means divergence). -/
def readLoop (f : Nat → ReadRes) (buf : List Nat) (i : Nat) :
    Nat → Option HandleRes
  | 0 => none
  | fuel + 1 =>
    match f i with
    | .timeout => some (.ok (decodeOut buf))
    | .data d => readLoop f (buf ++ d) (i + 1) fuel

/-- The whole read phase of `send`: the first
`line = await wait_for(readline, 5.0)` followed by the `while True` loop.
If the first read times out, `line` was never assigned and the exception
handler raises `UnboundLocalError`. -/
def readPhase (f : Nat → ReadRes) (fuel : Nat) : Option HandleRes :=
  match f 0 with
  | .timeout => some .unboundLocal
  | .data d => readLoop f d 1 fuel

/-- A worker's stdout behaviour during one exchange: given the bytes
written to its stdin, the outcome of the n-th read attempt. -/
def WorkerBeh : Type := List Nat → Nat → ReadRes

/-- The `send` handler for one request (the `io_lock` serialization of
concurrent requests is modelled separately below; within the critical
section the exchange is this sequential code).  Returns the state after
`start_kotlin`, the bytes written to the worker's stdin (`payload`), and
the outcome (`none` = the handler never returns).  `graceful` parametrises
a freshly spawned worker as in `start_kotlin`; `w` is the worker's stdout
behaviour. -/
def send (graceful : Bool) (w : WorkerBeh) (s : GState) (q : List Char)
    (fuel : Nat) : GState × List Nat × Option HandleRes :=
  let s1 := start_kotlin graceful s
  match s1.proc with
  | none => (s1, [], none)
  | some p =>
    match p.returncode with
    | some c => (s1, [], some (.workerExited c))
    | none =>
      let payload := utf8Encode (q ++ ['\n'])
      (s1, payload, readPhase (w payload) fuel)

/-! ## Serialization of concurrent `send` calls by `io_lock`

`io_lock = asyncio.Lock()` and every handler runs its write-then-read
sequence inside `async with io_lock`.  We model the concurrent execution of
any number of `send` invocations as a labelled transition system.  Each
invocation (task) `t` runs the program

  acquire `io_lock`; write stdin; read stdout (0 or more times); release

and its program counter records how far it has got: `0` = has not acquired
yet, `1` = holds the lock, about to write, `2` = has written, reading,
`3` = released (done).  Only the acquire step is guarded by the lock being
free; writes and reads are enabled purely by the task's own program
position, so mutual exclusion over the streams is a consequence of the
lock discipline, not an assumption. -/

/-- One observable action of a `send` invocation on the shared resources. -/
inductive Act where
  /-- `io_lock.acquire()` (entering `async with io_lock`) -/
  | acq
  /-- `proc.stdin.write(payload); await proc.stdin.drain()` -/
  | wr
  /-- one `await asyncio.wait_for(proc.stdout.readline(), timeout=5.0)` -/
  | rd
  /-- `io_lock.release()` (leaving `async with io_lock`) -/
  | rel
  deriving DecidableEq, Repr

/-- A trace event: which invocation performed which action. -/
structure Ev where
  tid : Nat
  act : Act
  deriving DecidableEq, Repr

/-- Shared scheduler state: who holds `io_lock` (if anyone) and each
invocation's program counter. -/
structure LSt where
  lock : Option Nat
  pc : Nat → Nat

/-- Interleaving semantics: a configuration is the scheduler state plus the
trace of events so far; any enabled task may take the next step. -/
inductive LStep : LSt × List Ev → LSt × List Ev → Prop where
  /-- a task that has not started acquires the free lock -/
  | acquire (s : LSt) (tr : List Ev) (t : Nat) :
      s.lock = none → s.pc t = 0 →
      LStep (s, tr)
        (⟨some t, Function.update s.pc t 1⟩, tr ++ [⟨t, .acq⟩])
  /-- a task that acquired performs its single write -/
  | write (s : LSt) (tr : List Ev) (t : Nat) :
      s.pc t = 1 →
      LStep (s, tr) (⟨s.lock, Function.update s.pc t 2⟩, tr ++ [⟨t, .wr⟩])
  /-- a task that wrote performs one more read attempt -/
  | read (s : LSt) (tr : List Ev) (t : Nat) :
      s.pc t = 2 →
      LStep (s, tr) (s, tr ++ [⟨t, .rd⟩])
  /-- a task that wrote leaves the `async with` block, releasing the lock -/
  | release (s : LSt) (tr : List Ev) (t : Nat) :
      s.pc t = 2 →
      LStep (s, tr) (⟨none, Function.update s.pc t 3⟩, tr ++ [⟨t, .rel⟩])

/-- Initial configuration: lock free, no invocation started, empty trace. -/
def linit : LSt × List Ev := (⟨none, fun _ => 0⟩, [])

/-- Reachability under the interleaving semantics. -/
def LReach (c : LSt × List Ev) : Prop := Relation.ReflTransGen LStep linit c

/-- The still-open critical section of invocation `t` after `n` reads:
acquire, write, then `n` read attempts. -/
def openBlock (t n : Nat) : List Ev :=
  ⟨t, .acq⟩ :: ⟨t, .wr⟩ :: List.replicate n ⟨t, .rd⟩

/-- A completed critical section of invocation `t` with `n` reads. -/
def fullBlock (t n : Nat) : List Ev := openBlock t n ++ [⟨t, .rel⟩]

/-- Traces made of completed critical sections of pairwise-distinct
invocations, laid end to end in the order the lock was acquired. -/
inductive Completed : List Ev → Prop where
  | nil : Completed []
  | snoc (pre : List Ev) (t n : Nat) :
      Completed pre → t ∉ pre.map Ev.tid → Completed (pre ++ fullBlock t n)

/-- A trace is serialized when it is a sequence of complete critical
sections (one per invocation, contiguous, in lock-acquisition order),
possibly followed by the partial section of the single current lock
holder.  In particular no two invocations' writes/reads interleave. -/
def SerializedTrace (tr : List Ev) : Prop :=
  Completed tr ∨
    ∃ pre t, Completed pre ∧ t ∉ pre.map Ev.tid ∧
      (tr = pre ++ [⟨t, .acq⟩] ∨ ∃ n, tr = pre ++ openBlock t n)

/-- Inductive invariant tying the scheduler state to the trace shape:
whoever holds the lock is the only task mid-section, and the trace is the
completed sections followed by the holder's partial section. -/
def LInv (st : LSt) (tr : List Ev) : Prop :=
  (∀ u, st.pc u = 0 ↔ u ∉ tr.map Ev.tid) ∧
    ((st.lock = none ∧ Completed tr ∧ ∀ u, st.pc u ≠ 1 ∧ st.pc u ≠ 2) ∨
      ∃ t, st.lock = some t ∧ (∀ u, u ≠ t → st.pc u ≠ 1 ∧ st.pc u ≠ 2) ∧
        ∃ pre, Completed pre ∧ t ∉ pre.map Ev.tid ∧
          ((st.pc t = 1 ∧ tr = pre ++ [⟨t, .acq⟩]) ∨
            (st.pc t = 2 ∧ ∃ n, tr = pre ++ openBlock t n)))

/-! ## Worker behaviours used as concrete scenarios -/

/-- A worker that replies to each input line with `"ECHO:" + input` (the
input already ends in `"\n"`, so the reply is `"ECHO:" + q + "\n"`) and
then produces nothing more, so the second read attempt times out. -/
def echoWorker : WorkerBeh := fun inp n =>
  if n = 0 then .data (utf8Encode "ECHO:".data ++ inp) else .timeout

/-- A worker that never writes any output and keeps its stdout open:
every read attempt exceeds the 5-second timeout. -/
def silentWorker : WorkerBeh := fun _ _ => .timeout

/-- A worker whose stdout is already at end-of-stream: every `readline`
completes immediately with `b""`, so `wait_for` never times out. -/
def closedWorker : WorkerBeh := fun _ _ => .data []

/-- A worker that produces one line and then closes its stdout
(end-of-stream mid-exchange): after the first read, every `readline`
completes immediately with `b""`. -/
def eofAfterOneWorker : WorkerBeh := fun _ n =>
  if n = 0 then .data (utf8Encode "partial\n".data) else .data []

/-! ## Helper lemmas -/

/-- The bytes delivered by one read attempt (`[]` for a timeout). -/
def dataBytes : ReadRes → List Nat
  | .data d => d
  | .timeout => []

/-- Concatenation of everything the first `n` read attempts delivered:
the value of the Python variable `line` after `n` reads. -/
def accumData (f : Nat → ReadRes) : Nat → List Nat
  | 0 => []
  | n + 1 => accumData f n ++ dataBytes (f n)

theorem utf8Encode_append (a b : List Char) :
    utf8Encode (a ++ b) = utf8Encode a ++ utf8Encode b := by
  simp [utf8Encode]

theorem utf8Encode_newline_count (q : List Char) (h : '\n' ∈ q) :
    1 ≤ (utf8Encode q).count 10 := by
  induction q with
  | nil => cases h
  | cons c rest ih =>
    have hsplit : utf8Encode (c :: rest) = utf8Char c.toNat ++ utf8Encode rest := by
      simp [utf8Encode]
    rw [hsplit, List.count_append]
    rcases List.mem_cons.mp h with hc | hc
    · subst hc
      have h10 : List.count 10 (utf8Char '\n'.toNat) = 1 := by decide
      omega
    · have := ih hc
      omega

/-- `start_kotlin` always leaves a live process reference: either the
existing live one, or a fresh spawn whose `returncode` is `None`. -/
theorem start_kotlin_live (g : Bool) (s : GState) :
    ∃ p, (start_kotlin g s).proc = some p ∧ p.returncode = none := by
  cases hp : s.proc with
  | none => exact ⟨⟨s.spawned, none, g⟩, by simp [start_kotlin, hp], rfl⟩
  | some p =>
    by_cases hrc : p.returncode = none
    · exact ⟨p, by simp [start_kotlin, hp, hrc], hrc⟩
    · exact ⟨⟨s.spawned, none, g⟩, by simp [start_kotlin, hp, hrc], rfl⟩

/-- `send` always reaches the exchange: after `start_kotlin` the recorded
exit code is `None`, so the `WorkerUnavailable` branch is skipped and the
payload is written and the read phase entered. -/
theorem send_eq_exchange (g : Bool) (w : WorkerBeh) (s : GState)
    (q : List Char) (fuel : Nat) :
    send g w s q fuel =
      (start_kotlin g s, utf8Encode (q ++ ['\n']),
        readPhase (w (utf8Encode (q ++ ['\n']))) fuel) := by
  obtain ⟨p, hp, hrc⟩ := start_kotlin_live g s
  simp [send, hp, hrc]

/-- If no read attempt from position `i` on ever times out, the
`while True` loop never exits, whatever the fuel. -/
theorem readLoop_no_timeout (f : Nat → ReadRes)
    (h : ∀ n, f n ≠ .timeout) :
    ∀ fuel buf i, readLoop f buf i fuel = none := by
  intro fuel
  induction fuel with
  | zero => intro buf i; rfl
  | succ fuel ih =>
    intro buf i
    cases hd : f i with
    | timeout => exact absurd hd (h i)
    | data d => simp [readLoop, hd, ih]

/-- If the stream never times out, the whole read phase produces nothing. -/
theorem readPhase_no_timeout (f : Nat → ReadRes)
    (h : ∀ n, f n ≠ .timeout) (fuel : Nat) : readPhase f fuel = none := by
  cases hd : f 0 with
  | timeout => exact absurd hd (h 0)
  | data d => simp [readPhase, hd, readLoop_no_timeout f h]

/-- Any outcome of the `while True` loop is a 200 response produced by a
`TimeoutError` on some read attempt at or after the current position. -/
theorem readLoop_some (f : Nat → ReadRes) :
    ∀ fuel buf i r, readLoop f buf i fuel = some r →
      (∃ out, r = .ok out) ∧ ∃ k, i ≤ k ∧ f k = .timeout := by
  intro fuel
  induction fuel with
  | zero => intro buf i r h; cases h
  | succ fuel ih =>
    intro buf i r h
    cases hd : f i with
    | timeout =>
      simp [readLoop, hd] at h
      exact ⟨⟨_, h.symm⟩, i, le_refl i, hd⟩
    | data d =>
      simp [readLoop, hd] at h
      obtain ⟨hout, k, hk, ht⟩ := ih _ _ _ h
      exact ⟨hout, k, by omega, ht⟩

/-- If every read attempt before `k` delivers data and attempt `k` times
out, the loop exits at attempt `k` with the buffer accumulated so far. -/
theorem readLoop_accum (f : Nat → ReadRes) (k : Nat)
    (hk : f k = .timeout) (hdata : ∀ j, j < k → ∃ e, f j = .data e) :
    ∀ fuel i, i ≤ k → k - i < fuel →
      readLoop f (accumData f i) i fuel = some (.ok (decodeOut (accumData f k))) := by
  intro fuel
  induction fuel with
  | zero => intro i _ h; omega
  | succ fuel ih =>
    intro i hik hfuel
    by_cases hi : i = k
    · subst hi
      simp [readLoop, hk]
    · obtain ⟨e, he⟩ := hdata i (by omega)
      have hacc : accumData f i ++ e = accumData f (i + 1) := by
        simp [accumData, he, dataBytes]
      simp only [readLoop, he]
      rw [hacc]
      exact ih (i + 1) (by omega) (by omega)

/-- Any outcome the read phase produces is either the `UnboundLocalError`
(first read timed out) or a 200 response; in particular never the dead-code
`noOutput` error and never a `workerExited` error. -/
theorem readPhase_some_shape (f : Nat → ReadRes) (fuel : Nat) (r : HandleRes)
    (h : readPhase f fuel = some r) :
    r = .unboundLocal ∨ ∃ out, r = .ok out := by
  cases hd : f 0 with
  | timeout =>
    simp only [readPhase, hd, Option.some.injEq] at h
    exact Or.inl h.symm
  | data d =>
    simp only [readPhase, hd] at h
    exact Or.inr ((readLoop_some f fuel d 1 r h).1)

/-! ## Claim theorems -/

/-- **C1.**  Refuted on the code: whenever no read attempt of the exchange
ever raises `TimeoutError` — in particular when the worker's stdout reaches
end-of-stream mid-exchange, after which every `readline()` completes
immediately with `b""` — the `while True` loop of `send` never exits, for
any number of loop iterations.  The handler therefore never returns and,
since `async with io_lock` releases only on exit, never releases the
mutual-exclusion token, permanently blocking all subsequent `send` calls. -/
theorem send_diverges_without_timeout (g : Bool) (w : WorkerBeh)
    (s : GState) (q : List Char)
    (hw : ∀ n, w (utf8Encode (q ++ ['\n'])) n ≠ .timeout) (fuel : Nat) :
    (send g w s q fuel).2.2 = none := by
  rw [send_eq_exchange]
  exact readPhase_no_timeout _ hw fuel

theorem send_diverges_without_timeout_witness :
    (send true eofAfterOneWorker ⟨some ⟨0, none, true⟩, 1⟩ "hello".data
        1000).2.2 = none :=
  send_diverges_without_timeout true eofAfterOneWorker
    ⟨some ⟨0, none, true⟩, 1⟩ "hello".data
    (fun n => by cases n <;> simp [eofAfterOneWorker]) 1000

/-- **C2.**  Refuted on the code: when the very first read attempt times
out with an empty buffer (worker silent, stream open), `send` does not
fail with the *NoOutput* error — the `except asyncio.TimeoutError` handler
evaluates the never-assigned `line` and raises `UnboundLocalError`; and
when the stream is at end-of-stream having produced zero bytes, `send`
produces no outcome at all (the loop spins on immediate `b""` reads
forever).  The `raise HTTPException(500, "...no output (EOF).")` is dead
code. -/
theorem send_no_output_misbehaves (g : Bool) (s : GState) (q : List Char) :
    (∀ fuel, (send g silentWorker s q fuel).2.2 = some .unboundLocal) ∧
    (∀ fuel, (send g closedWorker s q fuel).2.2 = none) := by
  constructor
  · intro fuel
    rw [send_eq_exchange]
    rfl
  · intro fuel
    rw [send_eq_exchange]
    show readPhase (closedWorker (utf8Encode (q ++ ['\n']))) fuel = none
    exact readPhase_no_timeout _ (fun n => by simp [closedWorker]) fuel

/-- **C3.**  If every read attempt before attempt `k` delivers a (nonempty)
line and attempt `k` (with `1 ≤ k`) raises `TimeoutError`, `send` returns
a normal 200 response whose text is the whole buffer accumulated so far,
decoded and with trailing newlines stripped — the partial result, not an
error. -/
theorem send_timeout_returns_partial (g : Bool) (w : WorkerBeh)
    (s : GState) (q : List Char) (k fuel : Nat)
    (hk : w (utf8Encode (q ++ ['\n'])) k = .timeout)
    (hdata : ∀ j, j < k →
      ∃ e, w (utf8Encode (q ++ ['\n'])) j = .data e ∧ e ≠ [])
    (hk1 : 1 ≤ k) (hfuel : k ≤ fuel) :
    (send g w s q fuel).2.2 =
      some (.ok (decodeOut (accumData (w (utf8Encode (q ++ ['\n']))) k))) := by
  rw [send_eq_exchange]
  obtain ⟨d, hd, -⟩ := hdata 0 (by omega)
  have hstep : readPhase (w (utf8Encode (q ++ ['\n']))) fuel =
      readLoop (w (utf8Encode (q ++ ['\n']))) d 1 fuel := by
    simp [readPhase, hd]
  have hacc1 : accumData (w (utf8Encode (q ++ ['\n']))) 1 = d := by
    simp [accumData, hd, dataBytes]
  simp only [hstep]
  rw [← hacc1]
  exact readLoop_accum _ k hk
    (fun j hj => (hdata j hj).imp fun e he => he.1) fuel 1 hk1 (by omega)

theorem send_timeout_returns_partial_witness :
    (send true echoWorker ⟨some ⟨0, none, true⟩, 1⟩ "hi".data 2).2.2 =
      some (.ok (decodeOut
        (accumData (echoWorker (utf8Encode ("hi".data ++ ['\n']))) 1))) :=
  send_timeout_returns_partial true echoWorker ⟨some ⟨0, none, true⟩, 1⟩
    "hi".data 1 2 (by decide)
    (fun j hj => by
      have hj0 : j = 0 := by omega
      subst hj0
      exact ⟨_, rfl, by decide⟩)
    (by decide) (by decide)

/-- **C5 (counterexample).**  Concrete refutation of the claim as stated:
with the worker already exited with code 137 before the call, `send`
does not fail with the *WorkerUnavailable* error carrying exit code 137 —
it spawns a fresh worker and serves the request against it, returning the
echo response. -/
theorem send_unavailable_counterexample :
    (send true echoWorker ⟨some ⟨0, some 137, true⟩, 1⟩ "x".data 2).2.2 =
      some (.ok "ECHO:x".data) ∧
    (send true echoWorker ⟨some ⟨0, some 137, true⟩, 1⟩ "x".data 2).2.2 ≠
      some (.workerExited 137) ∧
    (send true echoWorker ⟨some ⟨0, some 137, true⟩, 1⟩ "x".data 2).1 =
      ⟨some ⟨1, none, true⟩, 2⟩ := by
  decide

/-- **C5 (amended).**  If the worker process has been killed externally
(has a recorded exit code) before a call, `send` does not fail: its
initial `start_kotlin()` replaces the dead process with a freshly spawned
one (incrementing the spawn count; the fresh `returncode` is `None`), and
the request is served against the new instance through the normal
write/read path.  The `WorkerUnavailable` error is never produced in this
situation. -/
theorem send_respawns_when_exited (g : Bool) (w : WorkerBeh) (s : GState)
    (p : ProcH) (c : Int) (q : List Char) (fuel : Nat)
    (hp : s.proc = some p) (hc : p.returncode = some c) :
    send g w s q fuel =
      (⟨some ⟨s.spawned, none, g⟩, s.spawned + 1⟩, utf8Encode (q ++ ['\n']),
        readPhase (w (utf8Encode (q ++ ['\n']))) fuel) ∧
    ∀ c', (send g w s q fuel).2.2 ≠ some (.workerExited c') := by
  have hstart : start_kotlin g s =
      ⟨some ⟨s.spawned, none, g⟩, s.spawned + 1⟩ := by
    simp [start_kotlin, hp, hc]
  refine ⟨by rw [send_eq_exchange, hstart], fun c' hcontra => ?_⟩
  rw [send_eq_exchange] at hcontra
  rcases readPhase_some_shape _ fuel _ hcontra with h | ⟨out, h⟩ <;> cases h

theorem send_respawns_when_exited_witness :
    send true echoWorker ⟨some ⟨0, some 137, true⟩, 1⟩ "x".data 2 =
      (⟨some ⟨1, none, true⟩, 2⟩, utf8Encode ("x".data ++ ['\n']),
        readPhase (echoWorker (utf8Encode ("x".data ++ ['\n']))) 2) :=
  (send_respawns_when_exited true echoWorker ⟨some ⟨0, some 137, true⟩, 1⟩
    ⟨0, some 137, true⟩ 137 "x".data 2 rfl rfl).1

/-- **C6.**  The response-framing loop keeps attempting reads and only
stops via a read timeout: (i) if no read attempt ever times out the read
phase yields no outcome however far the loop is unfolded; (ii) the
end-of-stream check after the loop is unreachable — the *NoOutput* outcome
is never produced; (iii) every exchange that returns a response does so
through the `except asyncio.TimeoutError` handler, i.e. some read attempt
after the first line timed out. -/
theorem framing_loop_timeout_only :
    (∀ (f : Nat → ReadRes) (fuel : Nat),
      (∀ n, f n ≠ .timeout) → readPhase f fuel = none) ∧
    (∀ (f : Nat → ReadRes) (fuel : Nat), readPhase f fuel ≠ some .noOutput) ∧
    (∀ (f : Nat → ReadRes) (fuel : Nat) (out : List Char),
      readPhase f fuel = some (.ok out) → ∃ k, 1 ≤ k ∧ f k = .timeout) := by
  refine ⟨fun f fuel h => readPhase_no_timeout f h fuel, ?_, ?_⟩
  · intro f fuel hcontra
    rcases readPhase_some_shape f fuel _ hcontra with h | ⟨out, h⟩ <;> cases h
  · intro f fuel out h
    cases hd : f 0 with
    | timeout => simp [readPhase, hd] at h
    | data d =>
      simp only [readPhase, hd] at h
      obtain ⟨-, k, hk, ht⟩ := readLoop_some f fuel d 1 _ h
      exact ⟨k, hk, ht⟩

theorem framing_loop_timeout_only_witness :
    readPhase (fun _ => ReadRes.data []) 7 = none ∧
    (∃ k, 1 ≤ k ∧
      (fun n => if n = 0 then ReadRes.data [65] else ReadRes.timeout) k =
        ReadRes.timeout) :=
  ⟨framing_loop_timeout_only.1 (fun _ => ReadRes.data []) 7
      (fun n => by simp),
    framing_loop_timeout_only.2.2
      (fun n => if n = 0 then ReadRes.data [65] else ReadRes.timeout) 2
      ['A'] (by decide)⟩

/-- **C7.**  Against a live worker that replies to each input line with
`"ECHO:" + input + "\n"` and nothing more, `send("hello")` returns the 200
response whose text is `"ECHO:hello"` — the worker's reply with the
trailing newline stripped (the loop's second read attempt times out, so
the response is delivered by the timeout handler). -/
theorem send_echo_hello (g : Bool) (s : GState) (p : ProcH) (fuel : Nat)
    (_hp : s.proc = some p) (_hlive : p.returncode = none) :
    (send g echoWorker s "hello".data (fuel + 1)).2.2 =
      some (.ok "ECHO:hello".data) := by
  rw [send_eq_exchange]
  have h0 : echoWorker (utf8Encode ("hello".data ++ ['\n'])) 0 =
      .data (utf8Encode "ECHO:hello\n".data) := by decide
  have h1 : echoWorker (utf8Encode ("hello".data ++ ['\n'])) 1 =
      .timeout := by decide
  simp only [readPhase, h0, readLoop, h1]
  decide

theorem send_echo_hello_witness :
    (send true echoWorker ⟨some ⟨0, none, true⟩, 1⟩ "hello".data 1).2.2 =
      some (.ok "ECHO:hello".data) :=
  send_echo_hello true ⟨some ⟨0, none, true⟩, 1⟩ ⟨0, none, true⟩ 0 rfl rfl

/-! ## The lock-serialization proof (claim C4) -/

/-- Appending one event of task `t` preserves the `pc = 0` ↔ "no events
yet" correspondence, provided only `t`'s counter may have changed and is
nonzero afterwards. -/
theorem pcIff_snoc {pc : Nat → Nat} (pcN : Nat → Nat) {tr : List Ev}
    {t : Nat} (a : Act)
    (hagree : ∀ u, u ≠ t → pcN u = pc u) (ht : pcN t ≠ 0)
    (hiff : ∀ u, pc u = 0 ↔ u ∉ tr.map Ev.tid) :
    ∀ u, pcN u = 0 ↔ u ∉ ((tr ++ [Ev.mk t a]).map Ev.tid) := by
  intro u
  by_cases hu : u = t
  · subst hu
    refine ⟨fun h => absurd h ht, fun h => absurd ?_ h⟩
    simp [List.map_append]
  · rw [hagree u hu, hiff u]
    simp [List.map_append, List.mem_append, hu]

/-- The invariant holds initially. -/
theorem linv_init : LInv linit.1 linit.2 := by
  refine ⟨fun u => ⟨fun _ => by simp [linit], fun _ => rfl⟩,
    Or.inl ⟨rfl, Completed.nil, fun u => ⟨by simp [linit], by simp [linit]⟩⟩⟩

/-- The invariant is preserved by every step of the interleaving
semantics. -/
theorem linv_step {s s' : LSt} {tr tr' : List Ev}
    (hstep : LStep (s, tr) (s', tr')) (hinv : LInv s tr) : LInv s' tr' := by
  obtain ⟨hiff, hdisj⟩ := hinv
  cases hstep with
  | acquire _ _ t hlock hpc =>
    rcases hdisj with ⟨-, hcomp, hno⟩ | ⟨t', hlock', -⟩
    · refine ⟨pcIff_snoc (Function.update s.pc t 1) .acq
        (fun u hu => Function.update_noteq hu _ _) (by simp) hiff,
        Or.inr ⟨t, rfl, ?_, tr, hcomp, (hiff t).mp hpc,
          Or.inl ⟨by simp, rfl⟩⟩⟩
      intro u hu
      show Function.update s.pc t 1 u ≠ 1 ∧ Function.update s.pc t 1 u ≠ 2
      rw [Function.update_noteq hu]
      exact hno u
    · rw [hlock] at hlock'
      cases hlock'
  | write _ _ t hpc =>
    rcases hdisj with ⟨-, -, hno⟩ |
      ⟨t', hlock', hoth, pre, hcomp, hnotin, hsub⟩
    · exact absurd hpc (hno t).1
    · rcases eq_or_ne t' t with hEq | hne
      · subst hEq
        rcases hsub with ⟨-, htr⟩ | ⟨hpc2, -⟩
        · refine ⟨pcIff_snoc (Function.update s.pc t' 2) .wr
            (fun u hu => Function.update_noteq hu _ _) (by simp) hiff,
            Or.inr ⟨t', hlock', ?_, pre, hcomp, hnotin,
              Or.inr ⟨by simp, 0, ?_⟩⟩⟩
          · intro u hu
            show Function.update s.pc t' 2 u ≠ 1 ∧
              Function.update s.pc t' 2 u ≠ 2
            rw [Function.update_noteq hu]
            exact hoth u hu
          · rw [htr]
            simp [openBlock]
        · exact absurd (hpc.symm.trans hpc2) (by decide)
      · exact absurd hpc (hoth t (Ne.symm hne)).1
  | read _ _ t hpc =>
    rcases hdisj with ⟨-, -, hno⟩ |
      ⟨t', hlock', hoth, pre, hcomp, hnotin, hsub⟩
    · exact absurd hpc (hno t).2
    · rcases eq_or_ne t' t with hEq | hne
      · subst hEq
        rcases hsub with ⟨hpc1, -⟩ | ⟨-, n, htr⟩
        · exact absurd (hpc.symm.trans hpc1) (by decide)
        · refine ⟨pcIff_snoc s.pc .rd (fun u hu => rfl)
            (by simp [hpc]) hiff,
            Or.inr ⟨t', hlock', hoth, pre, hcomp, hnotin,
              Or.inr ⟨hpc, n + 1, ?_⟩⟩⟩
          rw [htr]
          simp [openBlock, List.replicate_succ', List.append_assoc]
      · exact absurd hpc (hoth t (Ne.symm hne)).2
  | release _ _ t hpc =>
    rcases hdisj with ⟨-, -, hno⟩ |
      ⟨t', hlock', hoth, pre, hcomp, hnotin, hsub⟩
    · exact absurd hpc (hno t).2
    · rcases eq_or_ne t' t with hEq | hne
      · subst hEq
        rcases hsub with ⟨hpc1, -⟩ | ⟨-, n, htr⟩
        · exact absurd (hpc.symm.trans hpc1) (by decide)
        · refine ⟨pcIff_snoc (Function.update s.pc t' 3) .rel
            (fun u hu => Function.update_noteq hu _ _) (by simp) hiff,
            Or.inl ⟨rfl, ?_, ?_⟩⟩
          · have heq : tr ++ [Ev.mk t' Act.rel] = pre ++ fullBlock t' n := by
              rw [htr]
              simp [fullBlock, List.append_assoc]
            rw [heq]
            exact Completed.snoc pre t' n hcomp hnotin
          · intro u
            show Function.update s.pc t' 3 u ≠ 1 ∧
              Function.update s.pc t' 3 u ≠ 2
            by_cases hu : u = t'
            · rw [hu, Function.update_same]
              exact ⟨by decide, by decide⟩
            · rw [Function.update_noteq hu]
              exact hoth u hu
      · exact absurd hpc (hoth t (Ne.symm hne)).2

/-- Every reachable configuration satisfies the invariant. -/
theorem lreach_inv {c : LSt × List Ev} (h : LReach c) : LInv c.1 c.2 := by
  induction h with
  | refl => exact linv_init
  | tail _ hstep ih => exact linv_step hstep ih

/-- **C4.**  Serialization by `io_lock`: in every reachable trace of
concurrent `send` invocations, the invocations' critical sections do not
interleave — the trace is a concatenation of contiguous
acquire–write–read…–release blocks of pairwise-distinct invocations, laid
end to end in the order the invocations acquired the token, possibly
followed by the single current holder's still-open block.  In particular
no two invocations interleave their writes/reads on the worker's
streams. -/
theorem io_lock_serializes (s : LSt) (tr : List Ev)
    (h : LReach (s, tr)) : SerializedTrace tr := by
  have hinv := lreach_inv h
  rcases hinv.2 with ⟨-, hcomp, -⟩ | ⟨t, -, -, pre, hcomp, hnotin, hsub⟩
  · exact Or.inl hcomp
  · right
    rcases hsub with ⟨-, htr⟩ | ⟨-, n, htr⟩
    · exact ⟨pre, t, hcomp, hnotin, Or.inl htr⟩
    · exact ⟨pre, t, hcomp, hnotin, Or.inr ⟨n, htr⟩⟩

theorem io_lock_serializes_witness :
    SerializedTrace
      [⟨0, .acq⟩, ⟨0, .wr⟩, ⟨0, .rd⟩, ⟨0, .rel⟩, ⟨1, .acq⟩] := by
  have h1 : LStep linit
      (⟨some 0, Function.update (fun _ => 0) 0 1⟩, [⟨0, .acq⟩]) :=
    LStep.acquire ⟨none, fun _ => 0⟩ [] 0 rfl rfl
  have h2 : LStep
      (⟨some 0, Function.update (fun _ => 0) 0 1⟩, [⟨0, .acq⟩])
      (⟨some 0, Function.update (Function.update (fun _ => 0) 0 1) 0 2⟩,
        [⟨0, .acq⟩, ⟨0, .wr⟩]) :=
    LStep.write ⟨some 0, Function.update (fun _ => 0) 0 1⟩ [⟨0, .acq⟩] 0 rfl
  have h3 : LStep
      (⟨some 0, Function.update (Function.update (fun _ => 0) 0 1) 0 2⟩,
        [⟨0, .acq⟩, ⟨0, .wr⟩])
      (⟨some 0, Function.update (Function.update (fun _ => 0) 0 1) 0 2⟩,
        [⟨0, .acq⟩, ⟨0, .wr⟩, ⟨0, .rd⟩]) :=
    LStep.read _ _ 0 rfl
  have h4 : LStep
      (⟨some 0, Function.update (Function.update (fun _ => 0) 0 1) 0 2⟩,
        [⟨0, .acq⟩, ⟨0, .wr⟩, ⟨0, .rd⟩])
      (⟨none, Function.update
          (Function.update (Function.update (fun _ => 0) 0 1) 0 2) 0 3⟩,
        [⟨0, .acq⟩, ⟨0, .wr⟩, ⟨0, .rd⟩, ⟨0, .rel⟩]) :=
    LStep.release _ _ 0 rfl
  have h5 : LStep
      (⟨none, Function.update
          (Function.update (Function.update (fun _ => 0) 0 1) 0 2) 0 3⟩,
        [⟨0, .acq⟩, ⟨0, .wr⟩, ⟨0, .rd⟩, ⟨0, .rel⟩])
      (⟨some 1, Function.update (Function.update
          (Function.update (Function.update (fun _ => 0) 0 1) 0 2) 0 3) 1 1⟩,
        [⟨0, .acq⟩, ⟨0, .wr⟩, ⟨0, .rd⟩, ⟨0, .rel⟩, ⟨1, .acq⟩]) :=
    LStep.acquire _ _ 1 rfl rfl
  exact io_lock_serializes
    ⟨some 1, Function.update (Function.update
        (Function.update (Function.update (fun _ => 0) 0 1) 0 2) 0 3) 1 1⟩
    [⟨0, .acq⟩, ⟨0, .wr⟩, ⟨0, .rd⟩, ⟨0, .rel⟩, ⟨1, .acq⟩]
    (((((Relation.ReflTransGen.refl.tail h1).tail h2).tail h3).tail
      h4).tail h5)

/-- **C8.**  `start_kotlin()` is idempotent: while a live (not-yet-exited)
worker process exists, calling it spawns no additional process and leaves
the module state — in particular the process-wide `proc` reference and the
spawn counter — completely unchanged. -/
theorem start_kotlin_idempotent (g : Bool) (s : GState) (p : ProcH)
    (hp : s.proc = some p) (hlive : p.returncode = none) :
    start_kotlin g s = s := by
  simp [start_kotlin, hp, hlive]

theorem start_kotlin_idempotent_witness :
    start_kotlin true ⟨some ⟨0, none, true⟩, 1⟩ = ⟨some ⟨0, none, true⟩, 1⟩ :=
  start_kotlin_idempotent true ⟨some ⟨0, none, true⟩, 1⟩ ⟨0, none, true⟩ rfl rfl

/-- **C9.**  `stop_kotlin()`: a no-op (state and actions) when no process
reference exists; for a still-running process it sends `terminate()`,
waits up to the 2-second grace period, and force-kills (then waits) only
when the process did not exit in time; for an already-exited process it
touches the process not at all; and in every case the process-wide
reference is `None` afterwards. -/
theorem stop_kotlin_contract (s : GState) :
    (stop_kotlin s).1.proc = none ∧
    (s.proc = none → stop_kotlin s = (s, [])) ∧
    (∀ p, s.proc = some p → p.returncode = none → p.exitsWithinGrace = true →
      stop_kotlin s = ({ s with proc := none }, [.terminate, .waitGrace 2 true])) ∧
    (∀ p, s.proc = some p → p.returncode = none → p.exitsWithinGrace = false →
      stop_kotlin s =
        ({ s with proc := none }, [.terminate, .waitGrace 2 false, .kill, .wait])) ∧
    (∀ p c, s.proc = some p → p.returncode = some c →
      stop_kotlin s = ({ s with proc := none }, [])) ∧
    (.kill ∈ (stop_kotlin s).2 →
      ∃ p, s.proc = some p ∧ p.returncode = none ∧ p.exitsWithinGrace = false) := by
  refine ⟨?_, ?_, ?_, ?_, ?_, ?_⟩
  · cases hp : s.proc with
    | none => simp [stop_kotlin, hp]
    | some p =>
      cases hrc : p.returncode with
      | none => cases hg : p.exitsWithinGrace <;> simp [stop_kotlin, hp, hrc, hg]
      | some c => simp [stop_kotlin, hp, hrc]
  · intro hp; simp [stop_kotlin, hp]
  · intro p hp hrc hg; simp [stop_kotlin, hp, hrc, hg]
  · intro p hp hrc hg; simp [stop_kotlin, hp, hrc, hg]
  · intro p c hp hrc; simp [stop_kotlin, hp, hrc]
  · intro h
    cases hp : s.proc with
    | none => simp [stop_kotlin, hp] at h
    | some p =>
      cases hrc : p.returncode with
      | none =>
        cases hg : p.exitsWithinGrace with
        | true => simp [stop_kotlin, hp, hrc, hg] at h
        | false => exact ⟨p, rfl, hrc, hg⟩
      | some c => simp [stop_kotlin, hp, hrc] at h

theorem stop_kotlin_contract_witness :
    stop_kotlin ⟨some ⟨0, none, true⟩, 1⟩ =
      ({ proc := none, spawned := 1 }, [.terminate, .waitGrace 2 true]) :=
  (stop_kotlin_contract ⟨some ⟨0, none, true⟩, 1⟩).2.2.1 ⟨0, none, true⟩ rfl rfl rfl

/-- **C10.**  For every query `q`, the bytes `send` writes to the worker's
stdin are exactly the UTF-8 encoding of `q` followed by the single byte
`0x0A` — no escaping or sanitization; consequently a `q` containing a
newline makes the payload contain at least two newline bytes, i.e. more
than one protocol line is delivered for a single request. -/
theorem send_writes_exact_payload (g : Bool) (w : WorkerBeh) (s : GState)
    (q : List Char) (fuel : Nat) :
    (send g w s q fuel).2.1 = utf8Encode q ++ [10] ∧
    ('\n' ∈ q → 2 ≤ ((send g w s q fuel).2.1.count 10)) := by
  have hpayload : (send g w s q fuel).2.1 = utf8Encode q ++ [10] := by
    rw [send_eq_exchange, utf8Encode_append]
    have : utf8Encode ['\n'] = [10] := by decide
    simp [this]
  refine ⟨hpayload, fun h => ?_⟩
  rw [hpayload, List.count_append]
  have h2 := utf8Encode_newline_count q h
  have h1 : List.count 10 [10] = 1 := by decide
  omega

theorem send_writes_exact_payload_witness :
    (send true silentWorker ⟨none, 0⟩ "a\nb".data 1).2.1 =
        utf8Encode "a\nb".data ++ [10] ∧
      2 ≤ ((send true silentWorker ⟨none, 0⟩ "a\nb".data 1).2.1.count 10) :=
  ⟨(send_writes_exact_payload true silentWorker ⟨none, 0⟩ "a\nb".data 1).1,
    (send_writes_exact_payload true silentWorker ⟨none, 0⟩ "a\nb".data 1).2
      (by decide)⟩

end MetricMode
